import Mathlib

/-!
Shallow embedding of the Webdesktop Window Lifecycle & Application Registry
subsystem (window-manager.js and app-registry.js), together with proofs of the
testable properties stated for it.

The window manager keeps an `activeWindows` map from window-id strings to
window records; each record merges the tracked state (`title`, `isMinimized`,
`isMaximized`) with the DOM element's inline style (`left`, `top`, `width`,
`height`, `display`, `zIndex`) and `dataset` snapshot fields
(`originalLeft`, ..., `originalHeight`), which is exactly the state the
JavaScript mutates.  Maps are modelled as association lists in insertion
order, which matches the iteration order of a JavaScript `Map`.
-/

/-- The CSS length values the window manager actually writes into
`style.left/top/width/height` and `dataset.original*`: the empty string,
`'0'`, `'Npx'`, a bare number (what `dataset` stores), `'100vw'`, and
`'calc(100vh - 40px)'`. -/
inductive StyleLen : Type where
  | empty : StyleLen
  | zero : StyleLen
  | px : Int → StyleLen
  | num : Int → StyleLen
  | vw100 : StyleLen
  | calcVh40 : StyleLen
deriving DecidableEq, Repr

/-- The `style.display` values the window manager writes: unset (`''`),
`'none'` (minimized), `'block'` (restored). -/
inductive DisplayVal : Type where
  | unset : DisplayVal
  | none : DisplayVal
  | block : DisplayVal
deriving DecidableEq, Repr

/-- One live window: the `activeWindows` record of window-manager.js merged
with the style and dataset state of its DOM element. -/
structure WMWin : Type where
  left : StyleLen
  top : StyleLen
  width : StyleLen
  height : StyleLen
  originalLeft : StyleLen
  originalTop : StyleLen
  originalWidth : StyleLen
  originalHeight : StyleLen
  display : DisplayVal
  zIndex : Int
  title : String
  isMinimized : Bool
  isMaximized : Bool
deriving DecidableEq, Repr

/-- The window manager's whole mutable state: the `activeWindows` map (as an
association list in insertion order), the `nextWindowId` counter, and the
`.taskbar-items` container (window-id, title pairs). -/
structure WMState : Type where
  activeWindows : List (String × WMWin)
  nextWindowId : Nat
  taskbarItems : List (String × String)
deriving DecidableEq, Repr

/-- `Map.get`: first association for a key, none if absent. -/
def alookup {β : Type} : List (String × β) → String → Option β
  | [], _ => Option.none
  | p :: t, k => if p.1 = k then Option.some p.2 else alookup t k

/-- In-place mutation of the record stored under `id` (JavaScript mutates the
record object itself, leaving every other entry untouched). -/
def mapAt (l : List (String × WMWin)) (id : String) (f : WMWin → WMWin) :
    List (String × WMWin) :=
  l.map (fun p => if p.1 = id then (p.1, f p.2) else p)

/-- `Map.set`: replace the existing association or append a new one. -/
def mapSet {β : Type} (l : List (String × β)) (k : String) (v : β) :
    List (String × β) :=
  if l.any (fun p => p.1 = k) then
    l.map (fun p => if p.1 = k then (k, v) else p)
  else l ++ [(k, v)]

theorem alookup_cons {β : Type} (p : String × β) (t : List (String × β))
    (k : String) :
    alookup (p :: t) k = if p.1 = k then Option.some p.2 else alookup t k :=
  rfl

theorem mapAt_cons (p : String × WMWin) (t : List (String × WMWin))
    (id : String) (f : WMWin → WMWin) :
    mapAt (p :: t) id f =
      (if p.1 = id then (p.1, f p.2) else p) :: mapAt t id f :=
  rfl

theorem alookup_mapAt_self {l : List (String × WMWin)} {id : String}
    {w : WMWin} (f : WMWin → WMWin) (h : alookup l id = Option.some w) :
    alookup (mapAt l id f) id = Option.some (f w) := by
  induction l with
  | nil => simp [alookup] at h
  | cons p t ih =>
    rw [alookup_cons] at h
    rw [mapAt_cons]
    by_cases hp : p.1 = id
    · rw [if_pos hp] at h ⊢
      rw [alookup_cons, if_pos hp]
      rw [Option.some_inj] at h
      rw [h]
    · rw [if_neg hp] at h ⊢
      rw [alookup_cons, if_neg hp]
      exact ih h

theorem alookup_mapAt_ne {l : List (String × WMWin)} {id id' : String}
    (f : WMWin → WMWin) (h : id' ≠ id) :
    alookup (mapAt l id f) id' = alookup l id' := by
  induction l with
  | nil => rfl
  | cons p t ih =>
    rw [mapAt_cons]
    by_cases hp : p.1 = id
    · have h1 : p.1 ≠ id' := by
        rw [hp]; exact fun hc => h hc.symm
      rw [if_pos hp, alookup_cons, alookup_cons, if_neg h1]
      simp only [h1, if_false]
      exact ih
    · rw [if_neg hp, alookup_cons, alookup_cons]
      by_cases hp' : p.1 = id'
      · rw [if_pos hp', if_pos hp']
      · rw [if_neg hp', if_neg hp']
        exact ih

theorem alookup_append_right_of_none {β : Type} {l : List (String × β)}
    {k : String} (v : β) (h : alookup l k = Option.none) :
    alookup (l ++ [(k, v)]) k = Option.some v := by
  induction l with
  | nil => simp [alookup]
  | cons p t ih =>
    rw [alookup_cons] at h
    rw [List.cons_append, alookup_cons]
    by_cases hp : p.1 = k
    · rw [if_pos hp] at h; exact absurd h (by simp)
    · rw [if_neg hp] at h ⊢
      exact ih h

theorem any_eq_false_of_alookup_none {β : Type} {l : List (String × β)}
    {k : String} (h : alookup l k = Option.none) :
    l.any (fun p => p.1 = k) = false := by
  induction l with
  | nil => rfl
  | cons p t ih =>
    rw [alookup_cons] at h
    rw [List.any_cons]
    by_cases hp : p.1 = k
    · rw [if_pos hp] at h; exact absurd h (by simp)
    · rw [if_neg hp] at h
      simp only [hp, decide_False, Bool.false_or]
      exact ih h

/-!
## Window identifiers

`createWindow` names each window `` `win-${this.nextWindowId++}` ``: the
decimal rendering of a strictly increasing counter.  `natToDecChars` is that
decimal rendering (structural in a fuel argument so concrete identifiers
evaluate by `decide`/`rfl`); `parseDec` is its left inverse, which yields
injectivity of identifier strings.
-/

/-- Decimal digits of `n`, most significant first, given enough fuel. -/
def natToDecAux : Nat → Nat → List Char
  | 0, _ => []
  | fuel + 1, n =>
    if n < 10 then [Char.ofNat (48 + n)]
    else natToDecAux fuel (n / 10) ++ [Char.ofNat (48 + n % 10)]

/-- The decimal character rendering of a natural number, as JavaScript string
interpolation produces it. -/
def natToDecChars (n : Nat) : List Char := natToDecAux (n + 1) n

/-- Numeric value of a decimal digit character. -/
def decDigitVal (c : Char) : Nat := c.toNat - 48

/-- Read a decimal digit string back into a number. -/
def parseDec (l : List Char) : Nat :=
  l.foldl (fun a c => 10 * a + decDigitVal c) 0

theorem parseDec_append (l : List Char) (c : Char) :
    parseDec (l ++ [c]) = 10 * parseDec l + decDigitVal c := by
  simp [parseDec, List.foldl_append]

theorem decDigitVal_ofNat {d : Nat} (h : d < 10) :
    decDigitVal (Char.ofNat (48 + d)) = d := by
  interval_cases d <;> decide

theorem parseDec_natToDecAux {fuel n : Nat} (h : n ≤ fuel) :
    parseDec (natToDecAux fuel n) = n := by
  induction fuel using Nat.strong_induction_on generalizing n with
  | _ fuel ih =>
    match fuel with
    | 0 =>
      have hn : n = 0 := Nat.le_zero.mp h
      simp [natToDecAux, parseDec, hn]
    | fuel + 1 =>
      rw [natToDecAux]
      by_cases h10 : n < 10
      · rw [if_pos h10]
        have : parseDec [Char.ofNat (48 + n)] = decDigitVal (Char.ofNat (48 + n)) := by
          simp [parseDec]
        rw [this, decDigitVal_ofNat h10]
      · rw [if_neg h10]
        rw [parseDec_append]
        have hdiv : n / 10 < n := Nat.div_lt_self (by omega) (by omega)
        rw [ih fuel (Nat.lt_succ_self fuel) (by omega),
          decDigitVal_ofNat (Nat.mod_lt n (by omega))]
        omega

theorem parseDec_natToDecChars (n : Nat) : parseDec (natToDecChars n) = n :=
  parseDec_natToDecAux (Nat.le_succ n)

theorem natToDecChars_injective : Function.Injective natToDecChars := by
  intro a b h
  have := congrArg parseDec h
  rwa [parseDec_natToDecChars, parseDec_natToDecChars] at this

/-- The window identifier string `` `win-${n}` ``. -/
def winIdStr (n : Nat) : String := "win-" ++ String.mk (natToDecChars n)

theorem winIdStr_injective : Function.Injective winIdStr := by
  intro a b h
  have hdata : ("win-" ++ String.mk (natToDecChars a)).data
      = ("win-" ++ String.mk (natToDecChars b)).data := congrArg String.data h
  have happ : ∀ l : List Char,
      ("win-" ++ String.mk l).data = "win-".data ++ l := fun _ => rfl
  rw [happ, happ] at hdata
  exact natToDecChars_injective (List.append_cancel_left hdata)

/-!
## Window manager operations (window-manager.js)
-/

/-- `Math.min(width, Math.max(200, viewportWidth - 40))`: the width actually
stored by `createWindow` (lines 74 and 77 of window-manager.js). -/
def clampedWidth (width vw : Int) : Int := min width (max 200 (vw - 40))

/-- `Math.min(height, Math.max(150, viewportHeight - 80))`: the height
actually stored by `createWindow` (lines 75 and 78). -/
def clampedHeight (height vh : Int) : Int := min height (max 150 (vh - 80))

/-- `WindowManager.createWindow(title, content, width, height)` on a viewport
of `vw × vh` pixels: mints the id `win-<nextWindowId>` (post-increment),
clamps the requested size, computes the cascade position, appends the new
record to `activeWindows`, and returns the handle's id.  The content payload
is opaque to the manager and is not part of the state it tracks. -/
def wmCreateWindow (s : WMState) (title : String) (width height vw vh : Int) :
    String × WMState :=
  let windowId := winIdStr s.nextWindowId
  let nextId := s.nextWindowId + 1
  let finalWidth := clampedWidth width vw
  let finalHeight := clampedHeight height vh
  let maxLeft := max 20 (vw - finalWidth - 20)
  let maxTop := max 20 (vh - finalHeight - 40 - 20)
  let cascadeOffset := min 25 (vw / 30)
  let offsetLeft := 50 + (nextId : Int) * cascadeOffset
  let offsetTop := 50 + (nextId : Int) * cascadeOffset
  let finalLeft := min (max 20 offsetLeft) maxLeft
  let finalTop := min (max 20 offsetTop) maxTop
  let win : WMWin :=
    { left := StyleLen.px finalLeft
      top := StyleLen.px finalTop
      width := StyleLen.px finalWidth
      height := StyleLen.px finalHeight
      originalLeft := StyleLen.empty
      originalTop := StyleLen.empty
      originalWidth := StyleLen.num finalWidth
      originalHeight := StyleLen.num finalHeight
      display := DisplayVal.unset
      zIndex := 0
      title := title
      isMinimized := false
      isMaximized := false }
  (windowId,
    { activeWindows := s.activeWindows ++ [(windowId, win)]
      nextWindowId := nextId
      taskbarItems := s.taskbarItems })

/-- `WindowManager.bringToFront(win)`: scan every window's current
`z-index` (unset parses to 0) and give the target `max + 1`. -/
def maxZ (l : List (String × WMWin)) : Int :=
  l.foldl (fun m p => if p.2.zIndex > m then p.2.zIndex else m) 0

def wmBringToFront (s : WMState) (id : String) : WMState :=
  { s with
    activeWindows := mapAt s.activeWindows id
      (fun w => { w with zIndex := maxZ s.activeWindows + 1 }) }

/-- `WindowManager.minimizeWindow(windowId)`: unknown ids return with no
change; otherwise hide the window, set `isMinimized`, and (re)create the
taskbar item for it (any existing item for the same id is removed first). -/
def wmMinimizeWindow (s : WMState) (id : String) : WMState :=
  match alookup s.activeWindows id with
  | Option.none => s
  | Option.some w =>
    { s with
      activeWindows :=
        mapAt s.activeWindows id
          (fun v => { v with display := DisplayVal.none, isMinimized := true })
      taskbarItems :=
        (s.taskbarItems.filter (fun t => t.1 ≠ id)) ++ [(id, w.title)] }

/-- The normal→maximized branch of `toggleMaximize`: snapshot the style
geometry into the dataset, pin the style to the full viewport, set the flag. -/
def winMaximize (w : WMWin) : WMWin :=
  { w with
    originalLeft := w.left
    originalTop := w.top
    originalWidth := w.width
    originalHeight := w.height
    left := StyleLen.zero
    top := StyleLen.zero
    width := StyleLen.vw100
    height := StyleLen.calcVh40
    isMaximized := true }

/-- The maximized→normal branch of `toggleMaximize`: restore the style
geometry from the dataset snapshot and clear the flag. -/
def winRestore (w : WMWin) : WMWin :=
  { w with
    left := w.originalLeft
    top := w.originalTop
    width := w.originalWidth
    height := w.originalHeight
    isMaximized := false }

/-- `WindowManager.toggleMaximize(windowId)`: unknown ids return with no
change; otherwise switch between the two geometry states and bring the
window to the front. -/
def wmToggleMaximize (s : WMState) (id : String) : WMState :=
  match alookup s.activeWindows id with
  | Option.none => s
  | Option.some w =>
    let f := cond w.isMaximized winRestore winMaximize
    wmBringToFront { s with activeWindows := mapAt s.activeWindows id f } id

/-- `WindowManager.moveWindow(win, clientX, clientY, dragOffset)`: the
clamped `(left, top)` written during a drag, for a window of layout width
`offsetWidth` on a `vw × vh` viewport. -/
def moveWindow (offsetWidth vw vh clientX clientY dragOffX dragOffY : Int) :
    Int × Int :=
  let newX := clientX - dragOffX
  let newY := clientY - dragOffY
  let titleBarHeight := 30
  let taskbarHeight := 40
  let minVisibleArea := 50
  let maxX := vw - minVisibleArea
  let maxY := vh - taskbarHeight - titleBarHeight
  let minX := -(offsetWidth - minVisibleArea)
  let minY := 0
  (max minX (min newX maxX), max minY (min newY maxY))

/-- One iteration of `minimizeAllWindows`'s `forEach`: minimize the window
only when it is neither minimized nor maximized. -/
def wmMinimizeAllStep (st : WMState) (id : String) : WMState :=
  match alookup st.activeWindows id with
  | Option.none => st
  | Option.some w =>
    cond (!w.isMinimized && !w.isMaximized) (wmMinimizeWindow st id) st

/-- `WindowManager.minimizeAllWindows()`: iterate over the tracked windows
in map order. -/
def wmMinimizeAllWindows (s : WMState) : WMState :=
  (s.activeWindows.map Prod.fst).foldl wmMinimizeAllStep s

/-!
## Application registry (app-registry.js)

An application's `handler` is a zero-argument JavaScript callback; in the
embedding a handler is represented by what invoking it does: throw, return a
null/undefined value, or return an instance (identified by an opaque token)
that may or may not be a `.window` element.
-/

/-- Outcome of invoking an application's `handler()`. -/
inductive HandlerResult : Type where
  | throws : HandlerResult
  | retNull : HandlerResult
  | ret : Nat → Bool → HandlerResult
deriving DecidableEq, Repr

/-- A registered application: `name` metadata, the `singleInstance` flag, and
the behavior of its `handler`.  (The icon, like the window content, is opaque
display data the registry never inspects.) -/
structure AppInfo : Type where
  name : String
  singleInstance : Bool
  handler : HandlerResult
deriving DecidableEq, Repr

/-- The registry's state: the `registeredApps` map and the
`runningInstances` map (app id → window instance token). -/
structure RegState : Type where
  registeredApps : List (String × AppInfo)
  runningInstances : List (String × Nat)
deriving DecidableEq, Repr

/-- `AppRegistry.registerApp(app)`: malformed registrations (missing id or
name — a missing handler cannot arise here because `AppInfo` always carries
one) are discarded; otherwise last-writer-wins insertion. -/
def regRegisterApp (s : RegState) (id : String) (app : AppInfo) : RegState :=
  if id = "" ∨ app.name = "" then s
  else { s with registeredApps := mapSet s.registeredApps id app }

/-- `AppRegistry.trackInstance(appId, windowElement, isSingleInstance)`. -/
def trackInstance (s : RegState) (appId : String) (inst : Nat)
    (isSingle : Bool) : RegState :=
  cond isSingle
    { s with runningInstances := mapSet s.runningInstances appId inst }
    s

/-- `AppRegistry.openApp(appId)`.  Returns the instance handle (if any), the
registry state afterwards, and whether the `handler` callback was invoked.
`focusExistingInstance` only touches window-manager state, so on the refocus
path the registry state is returned unchanged. -/
def openApp (s : RegState) (appId : String) : Option Nat × RegState × Bool :=
  match alookup s.registeredApps appId with
  | Option.none => (Option.none, s, false)
  | Option.some app =>
    let existing :=
      cond app.singleInstance (alookup s.runningInstances appId) Option.none
    match existing with
    | Option.some inst => (Option.some inst, s, false)
    | Option.none =>
      match app.handler with
      | HandlerResult.throws => (Option.none, s, true)
      | HandlerResult.retNull => (Option.none, s, true)
      | HandlerResult.ret inst isWin =>
        (Option.some inst,
          cond isWin (trackInstance s appId inst app.singleInstance) s,
          true)

/-- Number of `runningInstances` entries recorded for a given app id. -/
def countKey {β : Type} (l : List (String × β)) (k : String) : Nat :=
  (l.filter (fun p => p.1 = k)).length

/-!
## Reduction lemmas for the operations
-/

theorem wmMinimizeWindow_eq_none {s : WMState} {id : String}
    (h : alookup s.activeWindows id = Option.none) :
    wmMinimizeWindow s id = s := by
  unfold wmMinimizeWindow; rw [h]

theorem wmMinimizeWindow_eq_some {s : WMState} {id : String} {w : WMWin}
    (h : alookup s.activeWindows id = Option.some w) :
    wmMinimizeWindow s id =
      { s with
        activeWindows :=
          mapAt s.activeWindows id
            (fun v =>
              { v with display := DisplayVal.none, isMinimized := true })
        taskbarItems :=
          (s.taskbarItems.filter (fun t => t.1 ≠ id)) ++ [(id, w.title)] } := by
  unfold wmMinimizeWindow; rw [h]

theorem wmToggleMaximize_eq_none {s : WMState} {id : String}
    (h : alookup s.activeWindows id = Option.none) :
    wmToggleMaximize s id = s := by
  unfold wmToggleMaximize; rw [h]

theorem wmToggleMaximize_eq_some {s : WMState} {id : String} {w : WMWin}
    (h : alookup s.activeWindows id = Option.some w) :
    wmToggleMaximize s id =
      wmBringToFront
        { s with
          activeWindows :=
            mapAt s.activeWindows id (cond w.isMaximized winRestore winMaximize) }
        id := by
  unfold wmToggleMaximize; rw [h]

/-- The empty window-manager state the page starts from. -/
def emptyWM : WMState :=
  { activeWindows := [], nextWindowId := 0, taskbarItems := [] }

/-!
## Claim theorems
-/

/-- C10: `minimizeWindow` and `toggleMaximize` on an identifier that is not a
key of `activeWindows` return without raising and leave the entire state —
window records, flags, geometry, stacking values and taskbar items —
unchanged. -/
theorem unknown_id_silent_noop (s : WMState) (id : String)
    (h : alookup s.activeWindows id = Option.none) :
    wmMinimizeWindow s id = s ∧ wmToggleMaximize s id = s :=
  ⟨wmMinimizeWindow_eq_none h, wmToggleMaximize_eq_none h⟩

/-- Witness for C10 at the empty state and the id `win-0`. -/
theorem unknown_id_silent_noop_witness :
    wmMinimizeWindow emptyWM "win-0" = emptyWM ∧
    wmToggleMaximize emptyWM "win-0" = emptyWM :=
  unknown_id_silent_noop emptyWM "win-0" rfl

/-- C3: for every pointer position supplied during a drag — including
positions that would put the window fully off-screen — the clamped left
coordinate stays in `[-(offsetWidth - 50), vw - 50]` and the clamped top
coordinate stays in `[0, vh - 40 - 30]`, on any viewport in which those
ranges are nonempty (`offsetWidth + vw ≥ 100` and `vh ≥ 70`). -/
theorem moveWindow_keeps_visible_margin
    (offsetWidth vw vh clientX clientY dragOffX dragOffY : Int)
    (hx : 100 ≤ offsetWidth + vw) (hy : 70 ≤ vh) :
    -(offsetWidth - 50) ≤
        (moveWindow offsetWidth vw vh clientX clientY dragOffX dragOffY).1 ∧
    (moveWindow offsetWidth vw vh clientX clientY dragOffX dragOffY).1
        ≤ vw - 50 ∧
    0 ≤ (moveWindow offsetWidth vw vh clientX clientY dragOffX dragOffY).2 ∧
    (moveWindow offsetWidth vw vh clientX clientY dragOffX dragOffY).2
        ≤ vh - 40 - 30 := by
  have hm : moveWindow offsetWidth vw vh clientX clientY dragOffX dragOffY =
      (max (-(offsetWidth - 50)) (min (clientX - dragOffX) (vw - 50)),
        max 0 (min (clientY - dragOffY) (vh - 40 - 30))) := rfl
  rw [hm]
  refine ⟨le_max_left _ _, max_le (by omega) (min_le_right _ _),
    le_max_left _ _, max_le (by omega) (min_le_right _ _)⟩

/-- Witness for C3: a 600-px-wide window on a 1024×768 viewport with the
pointer dragged far beyond the bottom-right corner. -/
theorem moveWindow_keeps_visible_margin_witness :
    -(600 - 50) ≤ (moveWindow 600 1024 768 9999 9999 10 10).1 ∧
    (moveWindow 600 1024 768 9999 9999 10 10).1 ≤ 1024 - 50 ∧
    0 ≤ (moveWindow 600 1024 768 9999 9999 10 10).2 ∧
    (moveWindow 600 1024 768 9999 9999 10 10).2 ≤ 768 - 40 - 30 :=
  moveWindow_keeps_visible_margin 600 1024 768 9999 9999 10 10
    (by decide) (by decide)

/-- C7 counterexample: `createWindow` with a requested size of 100×100 on a
1024×768 viewport stores the window at 100×100 — strictly below the claimed
200×150 minimum, because the code only caps the maximum size
(`Math.min(width, maxWidth)`) and never raises small requests. -/
theorem create_small_request_stored_verbatim :
    (alookup (wmCreateWindow emptyWM "Demo" 100 100 1024 768).2.activeWindows
        (wmCreateWindow emptyWM "Demo" 100 100 1024 768).1).map
      (fun w => (w.width, w.height))
      = Option.some (StyleLen.px 100, StyleLen.px 100) ∧
    (100 : Int) < 200 ∧ (100 : Int) < 150 :=
  ⟨by decide, by decide, by decide⟩

/-- C7 amended: `createWindow` stores width `min(width, max(200, vw-40))` and
height `min(height, max(150, vh-80))`; the stored size therefore never
exceeds the viewport-derived cap, and it is never below 200×150 provided the
requested size itself is at least 200×150 (smaller requests are stored
verbatim). -/
theorem create_size_clamped (s : WMState) (title : String)
    (width height vw vh : Int) (hw : 200 ≤ width) (hh : 150 ≤ height) :
    ∃ win : WMWin,
      (wmCreateWindow s title width height vw vh).2.activeWindows
        = s.activeWindows
            ++ [((wmCreateWindow s title width height vw vh).1, win)] ∧
      win.width = StyleLen.px (clampedWidth width vw) ∧
      win.height = StyleLen.px (clampedHeight height vh) ∧
      200 ≤ clampedWidth width vw ∧
      clampedWidth width vw ≤ max 200 (vw - 40) ∧
      150 ≤ clampedHeight height vh ∧
      clampedHeight height vh ≤ max 150 (vh - 80) := by
  refine ⟨_, rfl, rfl, rfl, ?_, ?_, ?_, ?_⟩
  · exact le_min hw (le_max_left _ _)
  · exact min_le_right _ _
  · exact le_min hh (le_max_left _ _)
  · exact min_le_right _ _

/-- Witness for the amended C7 at a 600×400 request on a 1024×768 viewport. -/
theorem create_size_clamped_witness :
    ∃ win : WMWin,
      (wmCreateWindow emptyWM "Calc" 600 400 1024 768).2.activeWindows
        = emptyWM.activeWindows
            ++ [((wmCreateWindow emptyWM "Calc" 600 400 1024 768).1, win)] ∧
      win.width = StyleLen.px (clampedWidth 600 1024) ∧
      win.height = StyleLen.px (clampedHeight 400 768) ∧
      200 ≤ clampedWidth 600 1024 ∧
      clampedWidth 600 1024 ≤ max 200 (1024 - 40) ∧
      150 ≤ clampedHeight 400 768 ∧
      clampedHeight 400 768 ≤ max 150 (768 - 80) :=
  create_size_clamped emptyWM "Calc" 600 400 1024 768 (by decide) (by decide)

/-- C4: starting from a window in the normal (non-maximized) state, two
successive `toggleMaximize` calls restore the window's `left`, `top`,
`width` and `height` exactly to their values before the first call and
return `isMaximized` to `false`.  (The `zIndex` is not restored: both calls
bring the window to the front, which is the operation's documented side
effect.) -/
theorem toggleMaximize_roundtrip (s : WMState) (id : String) (w : WMWin)
    (hw : alookup s.activeWindows id = Option.some w)
    (hmax : w.isMaximized = false) :
    ∃ w2 : WMWin,
      alookup (wmToggleMaximize (wmToggleMaximize s id) id).activeWindows id
        = Option.some w2 ∧
      w2.left = w.left ∧ w2.top = w.top ∧ w2.width = w.width ∧
      w2.height = w.height ∧ w2.isMaximized = false := by
  have e1 := wmToggleMaximize_eq_some hw
  rw [hmax, cond_false] at e1
  have hw1 : alookup (wmToggleMaximize s id).activeWindows id
      = Option.some
          { winMaximize w with
            zIndex := maxZ (mapAt s.activeWindows id winMaximize) + 1 } := by
    rw [e1]
    unfold wmBringToFront
    exact alookup_mapAt_self
      (fun v =>
        { v with zIndex := maxZ (mapAt s.activeWindows id winMaximize) + 1 })
      (alookup_mapAt_self winMaximize hw)
  have hmax1 :
      ({ winMaximize w with
          zIndex := maxZ (mapAt s.activeWindows id winMaximize) + 1 }
        : WMWin).isMaximized = true := rfl
  have e2 := wmToggleMaximize_eq_some hw1
  rw [hmax1, cond_true] at e2
  have hw2 : alookup (wmToggleMaximize (wmToggleMaximize s id) id).activeWindows id
      = Option.some
          { winRestore
              { winMaximize w with
                zIndex := maxZ (mapAt s.activeWindows id winMaximize) + 1 } with
            zIndex :=
              maxZ (mapAt (wmToggleMaximize s id).activeWindows id winRestore)
                + 1 } := by
    rw [e2]
    unfold wmBringToFront
    exact alookup_mapAt_self
      (fun v =>
        { v with
          zIndex :=
            maxZ (mapAt (wmToggleMaximize s id).activeWindows id winRestore)
              + 1 })
      (alookup_mapAt_self winRestore hw1)
  exact ⟨_, hw2, rfl, rfl, rfl, rfl, rfl⟩

/-- The window record `createWindow` produces for the first window created
from the empty state (`"Demo"`, 600×400 request, 1024×768 viewport). -/
def demoWin : WMWin :=
  { left := StyleLen.px 75
    top := StyleLen.px 75
    width := StyleLen.px 600
    height := StyleLen.px 400
    originalLeft := StyleLen.empty
    originalTop := StyleLen.empty
    originalWidth := StyleLen.num 600
    originalHeight := StyleLen.num 400
    display := DisplayVal.unset
    zIndex := 0
    title := "Demo"
    isMinimized := false
    isMaximized := false }

/-- The state holding exactly that first window. -/
def demoState : WMState := (wmCreateWindow emptyWM "Demo" 600 400 1024 768).2

/-- Witness for C4 on the concrete one-window state. -/
theorem toggleMaximize_roundtrip_witness :
    ∃ w2 : WMWin,
      alookup (wmToggleMaximize (wmToggleMaximize demoState "win-0") "win-0").activeWindows
          "win-0" = Option.some w2 ∧
      w2.left = demoWin.left ∧ w2.top = demoWin.top ∧
      w2.width = demoWin.width ∧ w2.height = demoWin.height ∧
      w2.isMaximized = false :=
  toggleMaximize_roundtrip demoState "win-0" demoWin (by decide) (by decide)

theorem le_foldl_maxZ (l : List (String × WMWin)) (acc : Int) :
    acc ≤ l.foldl (fun m p => if p.2.zIndex > m then p.2.zIndex else m) acc := by
  induction l generalizing acc with
  | nil => exact le_refl acc
  | cons p t ih =>
    rw [List.foldl_cons]
    refine le_trans ?_ (ih (if p.2.zIndex > acc then p.2.zIndex else acc))
    by_cases hz : p.2.zIndex > acc
    · rw [if_pos hz]; exact le_of_lt hz
    · rw [if_neg hz]

theorem zIndex_le_maxZ {l : List (String × WMWin)} {id : String} {w : WMWin}
    (h : alookup l id = Option.some w) : w.zIndex ≤ maxZ l := by
  have H : ∀ (l : List (String × WMWin)) (acc : Int),
      alookup l id = Option.some w →
      w.zIndex
        ≤ l.foldl (fun m p => if p.2.zIndex > m then p.2.zIndex else m) acc := by
    intro l
    induction l with
    | nil => intro acc h0; simp [alookup] at h0
    | cons p t ih =>
      intro acc h0
      rw [alookup_cons] at h0
      rw [List.foldl_cons]
      by_cases hp : p.1 = id
      · rw [if_pos hp, Option.some_inj] at h0
        refine le_trans ?_ (le_foldl_maxZ t _)
        rw [← h0]
        by_cases hz : p.2.zIndex > acc
        · rw [if_pos hz]
        · rw [if_neg hz]; omega
      · rw [if_neg hp] at h0
        exact ih (if p.2.zIndex > acc then p.2.zIndex else acc) h0
  exact H l 0 h

/-- C8: for any two distinct live windows `a` and `b` and any prior stacking
values, `bringToFront(a)` followed by `bringToFront(b)` leaves `b`'s
`z-index` strictly greater than `a`'s. -/
theorem bringToFront_ordering (s : WMState) (a b : String) (wa wb : WMWin)
    (hab : a ≠ b)
    (ha : alookup s.activeWindows a = Option.some wa)
    (hb : alookup s.activeWindows b = Option.some wb) :
    ∃ wa' wb' : WMWin,
      alookup (wmBringToFront (wmBringToFront s a) b).activeWindows a
        = Option.some wa' ∧
      alookup (wmBringToFront (wmBringToFront s a) b).activeWindows b
        = Option.some wb' ∧
      wa'.zIndex < wb'.zIndex := by
  have hba : b ≠ a := fun hc => hab hc.symm
  have ha1 : alookup (wmBringToFront s a).activeWindows a
      = Option.some { wa with zIndex := maxZ s.activeWindows + 1 } := by
    unfold wmBringToFront
    exact alookup_mapAt_self
      (fun v => { v with zIndex := maxZ s.activeWindows + 1 }) ha
  have hb1 : alookup (wmBringToFront s a).activeWindows b
      = Option.some wb := by
    unfold wmBringToFront
    rw [alookup_mapAt_ne _ hba]
    exact hb
  have hle : maxZ s.activeWindows + 1
      ≤ maxZ (wmBringToFront s a).activeWindows := zIndex_le_maxZ ha1
  refine ⟨{ wa with zIndex := maxZ s.activeWindows + 1 },
    { wb with zIndex := maxZ (wmBringToFront s a).activeWindows + 1 },
    ?_, ?_, ?_⟩
  · show alookup (wmBringToFront (wmBringToFront s a) b).activeWindows a = _
    unfold wmBringToFront
    rw [alookup_mapAt_ne _ hab]
    exact ha1
  · show alookup (wmBringToFront (wmBringToFront s a) b).activeWindows b = _
    conv_lhs => rw [wmBringToFront]
    exact alookup_mapAt_self
      (fun v =>
        { v with zIndex := maxZ (wmBringToFront s a).activeWindows + 1 })
      hb1
  · show maxZ s.activeWindows + 1
      < maxZ (wmBringToFront s a).activeWindows + 1
    omega

/-- The record `createWindow` produces for a second window (`"Editor"`,
500×300 request) created after `demoWin`. -/
def demoWin2 : WMWin :=
  { left := StyleLen.px 100
    top := StyleLen.px 100
    width := StyleLen.px 500
    height := StyleLen.px 300
    originalLeft := StyleLen.empty
    originalTop := StyleLen.empty
    originalWidth := StyleLen.num 500
    originalHeight := StyleLen.num 300
    display := DisplayVal.unset
    zIndex := 0
    title := "Editor"
    isMinimized := false
    isMaximized := false }

/-- A state holding two live windows, `win-0` and `win-1`. -/
def demoState2 : WMState :=
  (wmCreateWindow demoState "Editor" 500 300 1024 768).2

/-- Witness for C8 on the concrete two-window state. -/
theorem bringToFront_ordering_witness :
    ∃ wa' wb' : WMWin,
      alookup (wmBringToFront (wmBringToFront demoState2 "win-0") "win-1").activeWindows
          "win-0" = Option.some wa' ∧
      alookup (wmBringToFront (wmBringToFront demoState2 "win-0") "win-1").activeWindows
          "win-1" = Option.some wb' ∧
      wa'.zIndex < wb'.zIndex :=
  bringToFront_ordering demoState2 "win-0" "win-1" demoWin demoWin2
    (by decide) (by decide) (by decide)

/-- C1 counterexample: create a window, maximize it, then invoke
`minimizeWindow` on it.  Before the minimize the flags are
`(isMinimized, isMaximized) = (false, true)`; afterwards they are
`(true, true)` — `minimizeWindow` never consults or clears `isMaximized`,
so the claimed mutual exclusion is violated. -/
theorem minimize_maximized_sets_both_flags :
    (alookup (wmToggleMaximize demoState "win-0").activeWindows "win-0").map
        (fun w => (w.isMinimized, w.isMaximized)) = Option.some (false, true) ∧
    (alookup
        (wmMinimizeWindow (wmToggleMaximize demoState "win-0") "win-0").activeWindows
        "win-0").map
        (fun w => (w.isMinimized, w.isMaximized)) = Option.some (true, true) :=
  ⟨by decide, by decide⟩

/-- C1 amended: `minimizeWindow` sets `isMinimized` and leaves `isMaximized`
unchanged, so the mutual exclusion of the two flags is preserved exactly
when the window being minimized is not maximized; minimizing a maximized
window leaves both flags true. -/
theorem minimize_nonmaximized_keeps_exclusion (s : WMState) (id : String)
    (w : WMWin) (hw : alookup s.activeWindows id = Option.some w)
    (hmax : w.isMaximized = false) :
    ∃ w' : WMWin,
      alookup (wmMinimizeWindow s id).activeWindows id = Option.some w' ∧
      w'.isMinimized = true ∧ w'.isMaximized = false := by
  rw [wmMinimizeWindow_eq_some hw]
  refine ⟨_, alookup_mapAt_self
    (fun v => { v with display := DisplayVal.none, isMinimized := true }) hw,
    rfl, ?_⟩
  exact hmax

/-- Witness for the amended C1 on the concrete one-window state. -/
theorem minimize_nonmaximized_keeps_exclusion_witness :
    ∃ w' : WMWin,
      alookup (wmMinimizeWindow demoState "win-0").activeWindows "win-0"
        = Option.some w' ∧
      w'.isMinimized = true ∧ w'.isMaximized = false :=
  minimize_nonmaximized_keeps_exclusion demoState "win-0" demoWin
    (by decide) (by decide)

theorem wmMinimizeWindow_alookup_self {s : WMState} {id : String} {w : WMWin}
    (h : alookup s.activeWindows id = Option.some w) :
    alookup (wmMinimizeWindow s id).activeWindows id
      = Option.some { w with display := DisplayVal.none, isMinimized := true } := by
  have hst : (wmMinimizeWindow s id).activeWindows
      = mapAt s.activeWindows id
          (fun v => { v with display := DisplayVal.none, isMinimized := true }) := by
    rw [wmMinimizeWindow_eq_some h]
  rw [hst]
  exact alookup_mapAt_self _ h

theorem wmMinimizeWindow_alookup_ne {s : WMState} {id id' : String}
    (hne : id' ≠ id) :
    alookup (wmMinimizeWindow s id).activeWindows id'
      = alookup s.activeWindows id' := by
  cases h : alookup s.activeWindows id with
  | none => rw [wmMinimizeWindow_eq_none h]
  | some w =>
    have hst : (wmMinimizeWindow s id).activeWindows
        = mapAt s.activeWindows id
            (fun v => { v with display := DisplayVal.none, isMinimized := true }) := by
      rw [wmMinimizeWindow_eq_some h]
    rw [hst]
    exact alookup_mapAt_ne _ hne

theorem wmMinimizeAllStep_eq_none {st : WMState} {id : String}
    (h : alookup st.activeWindows id = Option.none) :
    wmMinimizeAllStep st id = st := by
  unfold wmMinimizeAllStep; rw [h]

theorem wmMinimizeAllStep_eq_some {st : WMState} {id : String} {w : WMWin}
    (h : alookup st.activeWindows id = Option.some w) :
    wmMinimizeAllStep st id =
      cond (!w.isMinimized && !w.isMaximized) (wmMinimizeWindow st id) st := by
  unfold wmMinimizeAllStep; rw [h]

theorem wmMinimizeAllStep_alookup_ne {st : WMState} {id id' : String}
    (hne : id' ≠ id) :
    alookup (wmMinimizeAllStep st id).activeWindows id'
      = alookup st.activeWindows id' := by
  cases h : alookup st.activeWindows id with
  | none => rw [wmMinimizeAllStep_eq_none h]
  | some w =>
    rw [wmMinimizeAllStep_eq_some h]
    cases hc : (!w.isMinimized && !w.isMaximized) with
    | false => rw [cond_false]
    | true =>
      rw [cond_true]
      exact wmMinimizeWindow_alookup_ne hne

theorem wmMinimizeAllStep_preserves_minimized {st : WMState}
    {id id' : String} {w : WMWin}
    (hw : alookup st.activeWindows id = Option.some w)
    (hmin : w.isMinimized = true) :
    alookup (wmMinimizeAllStep st id').activeWindows id = Option.some w := by
  by_cases hne : id = id'
  · subst hne
    rw [wmMinimizeAllStep_eq_some hw, hmin]
    simp only [Bool.not_true, Bool.false_and, cond_false]
    exact hw
  · rw [wmMinimizeAllStep_alookup_ne hne]
    exact hw

theorem wmMinimizeAllStep_preserves_maximized {st : WMState}
    {id id' : String} {w : WMWin}
    (hw : alookup st.activeWindows id = Option.some w)
    (hmax : w.isMaximized = true) :
    alookup (wmMinimizeAllStep st id').activeWindows id = Option.some w := by
  by_cases hne : id = id'
  · subst hne
    rw [wmMinimizeAllStep_eq_some hw, hmax]
    simp only [Bool.not_true, Bool.and_false, cond_false]
    exact hw
  · rw [wmMinimizeAllStep_alookup_ne hne]
    exact hw

theorem foldl_preserves_minimized (L : List String) {st : WMState}
    {id : String} {w : WMWin}
    (hw : alookup st.activeWindows id = Option.some w)
    (hmin : w.isMinimized = true) :
    alookup (L.foldl wmMinimizeAllStep st).activeWindows id
      = Option.some w := by
  induction L generalizing st with
  | nil => exact hw
  | cons a t ih =>
    rw [List.foldl_cons]
    exact ih (wmMinimizeAllStep_preserves_minimized hw hmin)

theorem foldl_preserves_maximized (L : List String) {st : WMState}
    {id : String} {w : WMWin}
    (hw : alookup st.activeWindows id = Option.some w)
    (hmax : w.isMaximized = true) :
    alookup (L.foldl wmMinimizeAllStep st).activeWindows id
      = Option.some w := by
  induction L generalizing st with
  | nil => exact hw
  | cons a t ih =>
    rw [List.foldl_cons]
    exact ih (wmMinimizeAllStep_preserves_maximized hw hmax)

theorem mem_keys_of_alookup_some {β : Type} {l : List (String × β)}
    {k : String} {v : β} (h : alookup l k = Option.some v) :
    k ∈ l.map Prod.fst := by
  induction l with
  | nil => simp [alookup] at h
  | cons p t ih =>
    rw [alookup_cons] at h
    rw [List.map_cons, List.mem_cons]
    by_cases hp : p.1 = k
    · exact Or.inl hp.symm
    · rw [if_neg hp] at h
      exact Or.inr (ih h)

theorem foldl_minimizes (L : List String) {st : WMState} {id : String}
    {w : WMWin} (hmem : id ∈ L)
    (hw : alookup st.activeWindows id = Option.some w)
    (hmin : w.isMinimized = false) (hmax : w.isMaximized = false) :
    ∃ w' : WMWin,
      alookup (L.foldl wmMinimizeAllStep st).activeWindows id
        = Option.some w' ∧ w'.isMinimized = true := by
  induction L generalizing st w with
  | nil => simp at hmem
  | cons a t ih =>
    rw [List.foldl_cons]
    by_cases ha : id = a
    · subst ha
      have hstepeq : wmMinimizeAllStep st id = wmMinimizeWindow st id := by
        rw [wmMinimizeAllStep_eq_some hw, hmin, hmax]
        rfl
      rw [hstepeq]
      exact ⟨_,
        foldl_preserves_minimized t (wmMinimizeWindow_alookup_self hw) rfl,
        rfl⟩
    · have hmem' : id ∈ t := by
        rcases List.mem_cons.mp hmem with h1 | h1
        · exact absurd h1 ha
        · exact h1
      have hw' : alookup (wmMinimizeAllStep st a).activeWindows id
          = Option.some w := by
        rw [wmMinimizeAllStep_alookup_ne ha]
        exact hw
      exact ih hmem' hw' hmin hmax

/-- C6 amended: `WindowManager.minimizeAllWindows` minimizes exactly the
live windows that are neither minimized nor maximized; a window whose
`isMaximized` flag is true is skipped and its record is left completely
unchanged (show-desktop leaves maximized windows visible). -/
theorem minimizeAll_skips_maximized (s : WMState) :
    (∀ (id : String) (w : WMWin),
        alookup s.activeWindows id = Option.some w →
        w.isMinimized = false → w.isMaximized = false →
        ∃ w' : WMWin,
          alookup (wmMinimizeAllWindows s).activeWindows id
            = Option.some w' ∧ w'.isMinimized = true) ∧
    (∀ (id : String) (w : WMWin),
        alookup s.activeWindows id = Option.some w → w.isMaximized = true →
        alookup (wmMinimizeAllWindows s).activeWindows id
          = Option.some w) := by
  constructor
  · intro id w hw hmin hmax
    exact foldl_minimizes _ (mem_keys_of_alookup_some hw) hw hmin hmax
  · intro id w hw hmax
    exact foldl_preserves_maximized _ hw hmax

/-- A state with `win-0` in the normal state and `win-1` maximized. -/
def mixedState : WMState := wmToggleMaximize demoState2 "win-1"

/-- Witness for the amended C6: in `mixedState`, show-desktop minimizes the
normal window `win-0`. -/
theorem minimizeAll_skips_maximized_witness :
    ∃ w' : WMWin,
      alookup (wmMinimizeAllWindows mixedState).activeWindows "win-0"
        = Option.some w' ∧ w'.isMinimized = true :=
  (minimizeAll_skips_maximized mixedState).1 "win-0" demoWin
    (by decide) (by decide) (by decide)

/-- C6 counterexample: a maximized, non-minimized live window (`win-0` after
`toggleMaximize`) is still not minimized after `minimizeAllWindows` — the
`forEach` guard `!windowData.isMaximized` skips it, contradicting the claim
that show-desktop minimizes maximized windows as well. -/
theorem minimizeAll_leaves_maximized_unminimized :
    (alookup (wmToggleMaximize demoState "win-0").activeWindows "win-0").map
        (fun w => (w.isMinimized, w.isMaximized)) = Option.some (false, true) ∧
    (alookup
        (wmMinimizeAllWindows (wmToggleMaximize demoState "win-0")).activeWindows
        "win-0").map (fun w => w.isMinimized) = Option.some false :=
  ⟨by decide, by decide⟩

theorem countKey_append_self {β : Type} (l : List (String × β)) (k : String)
    (v : β) : countKey (l ++ [(k, v)]) k = countKey l k + 1 := by
  simp [countKey, List.filter_append]

theorem countKey_eq_zero_of_alookup_none {β : Type} {l : List (String × β)}
    {k : String} (h : alookup l k = Option.none) : countKey l k = 0 := by
  induction l with
  | nil => rfl
  | cons p t ih =>
    rw [alookup_cons] at h
    by_cases hp : p.1 = k
    · rw [if_pos hp] at h; exact absurd h (by simp)
    · rw [if_neg hp] at h
      have : countKey (p :: t) k = countKey t k := by
        simp [countKey, List.filter_cons, hp]
      rw [this]
      exact ih h

theorem mapSet_of_alookup_none {β : Type} {l : List (String × β)}
    {k : String} (v : β) (h : alookup l k = Option.none) :
    mapSet l k v = l ++ [(k, v)] := by
  unfold mapSet
  rw [any_eq_false_of_alookup_none h]
  simp

theorem openApp_eq_some {s : RegState} {appId : String} {app : AppInfo}
    (h : alookup s.registeredApps appId = Option.some app) :
    openApp s appId =
      (match cond app.singleInstance (alookup s.runningInstances appId)
          Option.none with
        | Option.some inst => (Option.some inst, s, false)
        | Option.none =>
          match app.handler with
          | HandlerResult.throws => (Option.none, s, true)
          | HandlerResult.retNull => (Option.none, s, true)
          | HandlerResult.ret inst isWin =>
            (Option.some inst,
              cond isWin (trackInstance s appId inst app.singleInstance) s,
              true)) := by
  unfold openApp
  rw [h]

/-- `openApp` on a registered single-instance app with no running instance
and a handler that returns a window: the launch path. -/
theorem openApp_launches {s : RegState} {appId : String} {app : AppInfo}
    {w : Nat} (hreg : alookup s.registeredApps appId = Option.some app)
    (hsingle : app.singleInstance = true)
    (hnone : alookup s.runningInstances appId = Option.none)
    (hhandler : app.handler = HandlerResult.ret w true) :
    openApp s appId =
      (Option.some w,
        { s with runningInstances := s.runningInstances ++ [(appId, w)] },
        true) := by
  rw [openApp_eq_some hreg, hsingle, cond_true, hnone, hhandler]
  show (Option.some w, trackInstance s appId w true, true) = _
  unfold trackInstance
  rw [cond_true, mapSet_of_alookup_none w hnone]

/-- `openApp` on a registered single-instance app whose instance is already
running: the refocus path — the handler is not invoked and the registry
state is untouched. -/
theorem openApp_refocuses {s : RegState} {appId : String} {app : AppInfo}
    {w : Nat} (hreg : alookup s.registeredApps appId = Option.some app)
    (hsingle : app.singleInstance = true)
    (hrun : alookup s.runningInstances appId = Option.some w) :
    openApp s appId = (Option.some w, s, false) := by
  rw [openApp_eq_some hreg, hsingle, cond_true, hrun]

/-- C2: for a `singleInstance` application whose handler returns a window,
a first `open(id)` launches and tracks exactly one RunningInstance; a second
`open(id)` while that window is live does not invoke the handler again,
returns the identical handle, and leaves the registry state unchanged. -/
theorem open_single_instance_twice (s : RegState) (appId : String)
    (app : AppInfo) (w : Nat)
    (hreg : alookup s.registeredApps appId = Option.some app)
    (hsingle : app.singleInstance = true)
    (hnone : alookup s.runningInstances appId = Option.none)
    (hhandler : app.handler = HandlerResult.ret w true) :
    (openApp s appId).1 = Option.some w ∧
    countKey (openApp s appId).2.1.runningInstances appId = 1 ∧
    (openApp (openApp s appId).2.1 appId).1 = Option.some w ∧
    (openApp (openApp s appId).2.1 appId).2.1 = (openApp s appId).2.1 ∧
    (openApp (openApp s appId).2.1 appId).2.2 = false := by
  have e1 := openApp_launches hreg hsingle hnone hhandler
  have hreg1 : alookup (openApp s appId).2.1.registeredApps appId
      = Option.some app := by
    rw [e1]; exact hreg
  have hrun1 : alookup (openApp s appId).2.1.runningInstances appId
      = Option.some w := by
    rw [e1]
    exact alookup_append_right_of_none w hnone
  have e2 := openApp_refocuses hreg1 hsingle hrun1
  refine ⟨by rw [e1], ?_, by rw [e2], by rw [e2], by rw [e2]⟩
  rw [e1]
  show countKey (s.runningInstances ++ [(appId, w)]) appId = 1
  rw [countKey_append_self, countKey_eq_zero_of_alookup_none hnone]

/-- A registry holding one single-instance app `"x"` whose handler returns
window token 7, with nothing running yet. -/
def demoReg : RegState :=
  { registeredApps :=
      [("x", { name := "X"
               singleInstance := true
               handler := HandlerResult.ret 7 true })]
    runningInstances := [] }

/-- Witness for C2 on the concrete registry. -/
theorem open_single_instance_twice_witness :
    (openApp demoReg "x").1 = Option.some 7 ∧
    countKey (openApp demoReg "x").2.1.runningInstances "x" = 1 ∧
    (openApp (openApp demoReg "x").2.1 "x").1 = Option.some 7 ∧
    (openApp (openApp demoReg "x").2.1 "x").2.1 = (openApp demoReg "x").2.1 ∧
    (openApp (openApp demoReg "x").2.1 "x").2.2 = false :=
  open_single_instance_twice demoReg "x"
    { name := "X", singleInstance := true, handler := HandlerResult.ret 7 true }
    7 (by decide) rfl rfl rfl

/-- C5: a registered application whose handler throws (and which is not
already running, so the launch path is actually taken) makes `open` catch
the error, return nothing, and leave the registry state — both the
RunningInstance table and the registration table — unchanged. -/
theorem open_throwing_handler_leaves_state (s : RegState) (appId : String)
    (app : AppInfo)
    (hreg : alookup s.registeredApps appId = Option.some app)
    (hthrow : app.handler = HandlerResult.throws)
    (hrun : app.singleInstance = true →
      alookup s.runningInstances appId = Option.none) :
    openApp s appId = (Option.none, s, true) := by
  rw [openApp_eq_some hreg]
  cases hsi : app.singleInstance with
  | false => rw [cond_false, hthrow]
  | true => rw [cond_true, hrun hsi, hthrow]

/-- A registry holding one single-instance app `"boom"` whose handler
throws. -/
def demoRegThrow : RegState :=
  { registeredApps :=
      [("boom", { name := "Boom"
                  singleInstance := true
                  handler := HandlerResult.throws })]
    runningInstances := [] }

/-- Witness for C5 on the concrete registry. -/
theorem open_throwing_handler_leaves_state_witness :
    openApp demoRegThrow "boom" = (Option.none, demoRegThrow, true) :=
  open_throwing_handler_leaves_state demoRegThrow "boom"
    { name := "Boom", singleInstance := true, handler := HandlerResult.throws }
    (by decide) rfl (fun _ => rfl)

/-- The arguments of one `createWindow` call (the content payload is opaque
and not part of the tracked state). -/
structure CreateArgs : Type where
  title : String
  width : Int
  height : Int
  vw : Int
  vh : Int
deriving DecidableEq, Repr

/-- Run a sequence of `createWindow` calls and collect the ids of the
returned handles. -/
def wmCreateRun : WMState → List CreateArgs → List String
  | _, [] => []
  | s, a :: rest =>
    (wmCreateWindow s a.title a.width a.height a.vw a.vh).1
      :: wmCreateRun (wmCreateWindow s a.title a.width a.height a.vw a.vh).2
          rest

theorem wmCreateRun_ids (s : WMState) (args : List CreateArgs) :
    wmCreateRun s args
      = (List.range args.length).map
          (fun k => winIdStr (s.nextWindowId + k)) := by
  induction args generalizing s with
  | nil => rfl
  | cons a rest ih =>
    show winIdStr s.nextWindowId
        :: wmCreateRun (wmCreateWindow s a.title a.width a.height a.vw a.vh).2
            rest
      = _
    rw [ih]
    have hnext : (wmCreateWindow s a.title a.width a.height a.vw a.vh).2.nextWindowId
        = s.nextWindowId + 1 := rfl
    rw [hnext, List.length_cons, List.range_succ_eq_map, List.map_cons,
      List.map_map]
    have hfun : ((fun k => winIdStr (s.nextWindowId + k)) ∘ Nat.succ)
        = (fun k => winIdStr (s.nextWindowId + 1 + k)) :=
      funext fun k => congrArg winIdStr (by omega)
    rw [hfun]
    simp only [Nat.add_zero]

/-- C9: across any sequence of `createWindow` calls from any starting state,
the returned handles carry pairwise distinct identifiers — each id is
`win-<counter>` for a strictly increasing counter that is never reset. -/
theorem createRun_ids_distinct (s : WMState) (args : List CreateArgs) :
    (wmCreateRun s args).Nodup := by
  rw [wmCreateRun_ids]
  refine List.Nodup.map ?_ (List.nodup_range _)
  intro x y hxy
  have := winIdStr_injective hxy
  omega
